import Mathlib

/-!
Shallow embedding of the advanced mouth de-click engine (the
AdvancedMouthDeClicker class in content.js): the configuration interface,
the gain repair scheduler, the loudness tracker, the LPC analyzer, the
multi-band spectral analyzer, speech protection, confidence fusion, and the
event rate limiter.

JavaScript numbers on the audio path are modelled as real numbers; the user
configuration fields (slider values) are modelled as rationals.  isFinite
guards on real-valued intermediates are vacuously true over ℝ and are
modelled by the sign conditions that remain expressible.
-/

open Real

/-- Processing mode of the engine: 'click' for sharp transients, 'smack'
for longer wet sounds. -/
inductive Mode where
  | click : Mode
  | smack : Mode
  deriving DecidableEq

/-- The five user-facing detection parameters held in this.params. -/
structure Params where
  sensitivity : ℚ
  frequencySkew : ℚ
  clickWidening : ℚ
  reductionAmount : ℚ
  mode : Mode
  deriving DecidableEq

/-- Constructor defaults of this.params in content.js. -/
def defaultParams : Params :=
  { sensitivity := 1, frequencySkew := 0, clickWidening := 5,
    reductionAmount := -60, mode := Mode.click }

/-- setSensitivity: clamp the supplied value to [0.1, 2.0]. -/
def setSensitivity (p : Params) (v : ℚ) : Params :=
  { p with sensitivity := max 0.1 (min 2.0 v) }

/-- setFrequencySkew: clamp the supplied value to [-1.0, 1.0]. -/
def setFrequencySkew (p : Params) (v : ℚ) : Params :=
  { p with frequencySkew := max (-1.0) (min 1.0 v) }

/-- setClickWidening: clamp the supplied value to [1, 20] (milliseconds). -/
def setClickWidening (p : Params) (v : ℚ) : Params :=
  { p with clickWidening := max 1 (min 20 v) }

/-- setReductionAmount: clamp the supplied value to [-60, 0] (dB). -/
def setReductionAmount (p : Params) (v : ℚ) : Params :=
  { p with reductionAmount := max (-60) (min 0 v) }

/-- setMode: 'click' and 'smack' are the valid modes (an invalid mode
string is a no-op in the source).  Selecting 'smack' additionally mutates
the stored clickWidening (raised to at least 8) and frequencySkew
(lowered by 0.2, floored at -0.3). -/
def setMode (p : Params) (m : Mode) : Params :=
  match m with
  | Mode.click => { p with mode := Mode.click }
  | Mode.smack =>
      { p with mode := Mode.smack,
               clickWidening := max p.clickWidening 8,
               frequencySkew := max (-0.3) (p.frequencySkew - 0.2) }

/-- A partial parameter set for updateParameters: each field is optionally
supplied, mirroring an Object.assign patch over the five public fields. -/
structure ParamsPatch where
  sensitivity : Option ℚ := none
  frequencySkew : Option ℚ := none
  clickWidening : Option ℚ := none
  reductionAmount : Option ℚ := none
  mode : Option Mode := none

/-- updateParameters: Object.assign of the patch onto this.params.
Supplied fields are copied verbatim (no clamping); omitted fields keep
their prior value. -/
def updateParameters (p : Params) (u : ParamsPatch) : Params :=
  { sensitivity := u.sensitivity.getD p.sensitivity,
    frequencySkew := u.frequencySkew.getD p.frequencySkew,
    clickWidening := u.clickWidening.getD p.clickWidening,
    reductionAmount := u.reductionAmount.getD p.reductionAmount,
    mode := u.mode.getD p.mode }

/-- Kinds of gain automation points emitted to the delayed output path. -/
inductive RampKind where
  | setValue : RampKind
  | linearRamp : RampKind
  deriving DecidableEq

/-- One scheduled gain control point. -/
structure GainPoint where
  time : ℝ
  gain : ℝ
  kind : RampKind

/-- Raw reduction factor of handleMouthClickDetected: reductionAmount of
-60 or below gives the fixed floor 0.0001 (complete removal, never exactly
zero); otherwise 10^(reductionAmount/20). -/
noncomputable def rawReductionFactor (reductionAmount : ℚ) : ℝ :=
  if reductionAmount ≤ -60 then 0.0001
  else (10 : ℝ) ^ ((reductionAmount : ℝ) / 20)

/-- Safety check of handleMouthClickDetected: a non-finite or non-positive
reduction factor is replaced by 0.0001 (non-finiteness is vacuous over ℝ,
the sign check remains). -/
noncomputable def reductionSafety (x : ℝ) : ℝ :=
  if x ≤ 0 then 0.0001 else x

/-- Resolved reduction factor used by the gain scheduler. -/
noncomputable def resolveReductionFactor (reductionAmount : ℚ) : ℝ :=
  reductionSafety (rawReductionFactor reductionAmount)

/-- Safety check on the detection confidence handed to the scheduler: a
non-finite or negative confidence is replaced by 0.5. -/
noncomputable def confidenceSafety (c : ℝ) : ℝ :=
  if c < 0 then 0.5 else c

/-- Resolved widening duration: clickWidening milliseconds converted to
seconds, multiplied by 1.5 in smack mode, with a 5 ms fallback replacing a
non-finite or non-positive result. -/
noncomputable def resolveWideningDuration (p : Params) : ℝ :=
  let baseWidening := (p.clickWidening : ℝ) / 1000
  let modeMultiplier : ℝ := if p.mode = Mode.smack then 1.5 else 1.0
  let wideningDuration := baseWidening * modeMultiplier
  if wideningDuration ≤ 0 then 0.005 else wideningDuration

/-- The gain-automation curve emitted by handleMouthClickDetected on its
main path, anchored at lookAheadTime = currentTime + delayTime: unity
pre-fade, linear ramp down to max(0.1, reductionFactor), hold through the
widened duration, then a three-step linear ramp back to unity. -/
noncomputable def scheduledGainCurve (p : Params) (confidence : ℝ)
    (currentTime delayTime : ℝ) : List GainPoint :=
  let lookAheadTime := currentTime + delayTime
  let wideningDuration := resolveWideningDuration p
  let reductionFactor := resolveReductionFactor p.reductionAmount
  let _confidence := confidenceSafety confidence
  let fadeInTime := max 0.01 (wideningDuration * 0.5)
  let fadeOutTime := max 0.02 (wideningDuration * 1.5)
  [ { time := lookAheadTime - fadeInTime, gain := 1.0, kind := RampKind.setValue },
    { time := lookAheadTime, gain := max 0.1 reductionFactor, kind := RampKind.linearRamp },
    { time := lookAheadTime + wideningDuration, gain := max 0.1 reductionFactor,
      kind := RampKind.setValue },
    { time := lookAheadTime + wideningDuration + fadeOutTime * 0.3, gain := 0.6,
      kind := RampKind.linearRamp },
    { time := lookAheadTime + wideningDuration + fadeOutTime * 0.7, gain := 0.85,
      kind := RampKind.linearRamp },
    { time := lookAheadTime + wideningDuration + fadeOutTime, gain := 1.0,
      kind := RampKind.linearRamp } ]

/-- The minimal fixed-shape fallback curve emitted when scheduling the main
curve fails: a gentle dip to 0.3 with a 50 ms linear recovery to unity. -/
noncomputable def fallbackGainCurve (currentTime delayTime : ℝ) : List GainPoint :=
  [ { time := currentTime + delayTime, gain := 0.3, kind := RampKind.setValue },
    { time := currentTime + delayTime + 0.05, gain := 1.0, kind := RampKind.linearRamp } ]

/-- Detection threshold constants of this.params.thresholds. -/
def lpcErrorThreshold : ℝ := 0.018

/-- Spectral flux threshold constant. -/
def spectralFluxThresholdC : ℝ := 0.16

/-- Transient (mouth-band) ratio threshold constant. -/
def transientRatioThreshold : ℝ := 2.8

/-- Confidence threshold constant. -/
def confidenceThresholdParam : ℝ := 0.65

/-- RMS of the first n time-domain samples (the isFinite sample guard of
the source is vacuous over ℝ). -/
noncomputable def rmsOf (timeData : ℕ → ℝ) (n : ℕ) : ℝ :=
  Real.sqrt ((∑ i in Finset.range n, timeData i * timeData i) / n)

/-- Result of one updateDynamicLoudness call, including the mutated rolling
history. -/
structure LoudnessInfo where
  loudnessDb : ℝ
  snr : ℝ
  adaptiveThreshold : ℝ
  backgroundNoiseLevel : ℝ
  newHistory : List ℝ

/-- updateDynamicLoudness: RMS loudness in dB (-60 when the RMS is zero or
non-finite, otherwise 20*log10 of the RMS floored at 1e-10), a 30-frame
rolling history, a 10th-percentile background-noise estimate, the SNR
clamped to [0.1, 60], and the adaptive confidence threshold derived from a
loudness boost. -/
noncomputable def updateDynamicLoudness (history : List ℝ) (timeData : ℕ → ℝ)
    (n : ℕ) : LoudnessInfo :=
  let rms := rmsOf timeData n
  let loudnessDb := if 0 < rms then 20 * Real.logb 10 (max rms 1e-10) else -60
  let pushed := history ++ [loudnessDb]
  let newHistory := if 30 < pushed.length then pushed.tail else pushed
  let sortedLoudness := newHistory.insertionSort (· ≤ ·)
  let backgroundNoiseLevel := sortedLoudness.getD (newHistory.length / 10) 0
  let snr := max 0.1 (min 60 (loudnessDb - backgroundNoiseLevel))
  let loudnessBoost := max 1.0 (min 5.0 (3.0 - snr / 20))
  let adaptiveThreshold := max 0.1 (min 1.0 (confidenceThresholdParam / loudnessBoost))
  { loudnessDb := loudnessDb, snr := snr, adaptiveThreshold := adaptiveThreshold,
    backgroundNoiseLevel := backgroundNoiseLevel, newHistory := newHistory }

/-- LPC predictor order (this.lpcOrder). -/
def lpcOrder : ℕ := 16

/-- Analyser frequency bin count (fftSize 8192 divided by 2). -/
def binCount : ℕ := 4096

/-- Biased autocorrelation at lag k over the first n samples, normalized by
the overlap length n-k. -/
noncomputable def autocorrAt (signal : ℕ → ℝ) (n k : ℕ) : ℝ :=
  (∑ i in Finset.range (n - k), signal i * signal (i + k)) / ((n - k : ℕ) : ℝ)

/-- The in-place inner coefficient update of the Levinson-Durbin loop: for
j = 1..i-1 sequentially, a[j] := a[j] - lambda * a[i-j] (the source updates
the array in place, so later iterations read already-updated entries). -/
noncomputable def levinsonInner (lam : ℝ) (i : ℕ) (a0 : ℕ → ℝ) : ℕ → ℝ :=
  (List.range' 1 (i - 1)).foldl
    (fun a j => Function.update a j (a j - lam * a (i - j))) a0

/-- The Levinson-Durbin recursion with the degeneracy and stability early
exits of the source: stop (keeping the partial-order model) when the
running error is within 1e-10 of zero or a reflection coefficient reaches
magnitude 1; otherwise set a[i] := lambda and shrink the error. -/
noncomputable def levinsonRun (r : ℕ → ℝ) : ℕ → ℕ → ((ℕ → ℝ) × ℝ) → ((ℕ → ℝ) × ℝ)
  | 0, _, st => st
  | fuel + 1, i, st =>
      let a := st.1
      let e := st.2
      if |e| < 1e-10 then (a, e)
      else
        let lam := (r i - ∑ j in Finset.Ico 1 i, a j * r (i - j)) / e
        if 1 ≤ |lam| then (a, e)
        else
          levinsonRun r fuel (i + 1)
            (Function.update (levinsonInner lam i a) i lam, e * (1 - lam * lam))

/-- computeLPCCoefficients: windows shorter than 2*order and windows with
r[0] below 1e-10 short-circuit to order+1 zero coefficients and error 1.0;
otherwise the Levinson-Durbin recursion runs from the unit predictor and
the final error is floored at 1e-10. -/
noncomputable def computeLPCCoefficients (signal : ℕ → ℝ) (n : ℕ) (order : ℕ) :
    List ℝ × ℝ :=
  if n < order * 2 then (List.replicate (order + 1) 0, 1.0)
  else if autocorrAt signal n 0 < 1e-10 then (List.replicate (order + 1) 0, 1.0)
  else
    let st := levinsonRun (autocorrAt signal n) order 1
      (fun j => if j = 0 then 1 else 0, autocorrAt signal n 0)
    ((List.range (order + 1)).map st.1, max st.2 1e-10)

/-- computePredictionError: the residual of the fitted predictor applied to
each sample beyond the warm-up region (indices below the coefficient order
keep the Float32Array zero initialization). -/
noncomputable def computePredictionError (signal : ℕ → ℝ) (n : ℕ)
    (lpcCoeffs : List ℝ) : ℕ → ℝ :=
  fun i =>
    if lpcCoeffs.length - 1 ≤ i ∧ i < n then
      signal i - ∑ j in Finset.Icc 1 (lpcCoeffs.length - 1),
        lpcCoeffs.getD j 0 * signal (i - j)
    else 0

/-- Size of the LPC analysis window: min(1024, frame length). -/
def analysisWindowSize (n : ℕ) : ℕ := min 1024 n

/-- The analysis window is the last windowSize samples of the frame
(timeData.slice(-windowSize)). -/
def analysisWindow (timeData : ℕ → ℝ) (n : ℕ) : ℕ → ℝ :=
  fun i => timeData (n - analysisWindowSize n + i)

/-- Residual RMS over the post-warm-up region of the analysis window. -/
noncomputable def errorRMSOf (e : ℕ → ℝ) (n : ℕ) : ℝ :=
  Real.sqrt ((∑ i in Finset.Ico lpcOrder n, e i * e i) / ((n - lpcOrder : ℕ) : ℝ))

/-- Residual peak magnitude over the post-warm-up region. -/
noncomputable def errorPeakOf (e : ℕ → ℝ) (n : ℕ) : ℝ :=
  (List.range' lpcOrder (n - lpcOrder)).foldl (fun m i => max m |e i|) 0

/-- Adaptive LPC error threshold: the base threshold divided by
sensitivity^2.5 and by the SNR factor. -/
noncomputable def adaptiveErrorThreshold (snr s : ℝ) : ℝ :=
  lpcErrorThreshold / s ^ (2.5 : ℝ) / max 1.0 (snr / 10)

/-- LPC confidence: the maximum of the RMS-based and peak-based scores,
each capped at 2. -/
noncomputable def lpcConfidence (timeData : ℕ → ℝ) (n : ℕ) (snr s : ℝ) : ℝ :=
  let w := analysisWindow timeData n
  let ws := analysisWindowSize n
  let lpcResult := computeLPCCoefficients w ws lpcOrder
  let e := computePredictionError w ws lpcResult.1
  let t := adaptiveErrorThreshold snr s
  max (min 2.0 (errorRMSOf e ws / t)) (min 2.0 (errorPeakOf e ws / (t * 3)))

/-- Cached frequency bin index: floor(freq * binCount / sampleRate). -/
def freqBin (freq sampleRate : ℕ) : ℕ := freq * binCount / sampleRate

/-- calculateBandEnergy over a bin range: mean linear magnitude
(10^(dB/20)) scaled by the band weight, zero on an empty bin range. -/
noncomputable def calculateBandEnergy (freqData : ℕ → ℝ) (minBin maxBin : ℕ)
    (weight : ℝ) : ℝ :=
  if minBin < maxBin then
    ((∑ i in Finset.Ico minBin maxBin, (10 : ℝ) ^ (freqData i / 20)) /
      ((maxBin - minBin : ℕ) : ℝ)) * weight
  else 0

/-- Low band energy: 100-800 Hz, weight 0.2. -/
noncomputable def bandEnergyLow (fd : ℕ → ℝ) (sr : ℕ) : ℝ :=
  calculateBandEnergy fd (freqBin 100 sr) (freqBin 800 sr) 0.2

/-- Mid band energy: 800-2500 Hz, weight 0.6. -/
noncomputable def bandEnergyMid (fd : ℕ → ℝ) (sr : ℕ) : ℝ :=
  calculateBandEnergy fd (freqBin 800 sr) (freqBin 2500 sr) 0.6

/-- High band energy: 2500-8000 Hz, weight 1.0. -/
noncomputable def bandEnergyHigh (fd : ℕ → ℝ) (sr : ℕ) : ℝ :=
  calculateBandEnergy fd (freqBin 2500 sr) (freqBin 8000 sr) 1.0

/-- Mouth band energy: 2000-5000 Hz, weight 1.5. -/
noncomputable def bandEnergyMouth (fd : ℕ → ℝ) (sr : ℕ) : ℝ :=
  calculateBandEnergy fd (freqBin 2000 sr) (freqBin 5000 sr) 1.5

/-- Spectral flux: mean half-wave-rectified frame-to-frame magnitude
increase across all bins. -/
noncomputable def spectralFluxOf (fd prev : ℕ → ℝ) : ℝ :=
  (∑ i in Finset.range binCount, max 0 (fd i - prev i)) / (binCount : ℝ)

/-- Center frequency of bin i: i * sampleRate / (2 * binCount). -/
noncomputable def binFreq (i : ℕ) (sr : ℕ) : ℝ :=
  ((i : ℝ) * (sr : ℝ)) / (2 * (binCount : ℝ))

/-- calculateSpectralCentroid: magnitude-weighted mean frequency. -/
noncomputable def calculateSpectralCentroid (fd : ℕ → ℝ) (sr : ℕ) : ℝ :=
  let numerator := ∑ i in Finset.range binCount, binFreq i sr * (10:ℝ) ^ (fd i / 20)
  let denominator := ∑ i in Finset.range binCount, (10:ℝ) ^ (fd i / 20)
  if 0 < denominator then numerator / denominator else 0

/-- calculateSpectralSpread: magnitude-weighted standard deviation around
the centroid. -/
noncomputable def calculateSpectralSpread (fd : ℕ → ℝ) (sr : ℕ) (centroid : ℝ) : ℝ :=
  let numerator := ∑ i in Finset.range binCount,
    (binFreq i sr - centroid) ^ 2 * (10:ℝ) ^ (fd i / 20)
  let denominator := ∑ i in Finset.range binCount, (10:ℝ) ^ (fd i / 20)
  if 0 < denominator then Real.sqrt (numerator / denominator) else 0

/-- getFrequencyWeight: the frequency-skew weighting around the 3500 Hz
mouth-click center frequency. -/
noncomputable def getFrequencyWeight (skew : ℝ) (freq : ℝ) : ℝ :=
  if skew < 0 then Real.exp (-|skew| * max 0 (freq / 3500 - 1))
  else if 0 < skew then Real.exp (-skew * max 0 (1 - freq / 3500))
  else Real.exp (-2 * (|freq - 3500| / 3500))

/-- calculateAutocorrelation of checkSpeechProtection: lags below both
maxLag and n hold the biased autocorrelation, the remaining array entries
keep their zero initialization. -/
noncomputable def protAutocorr (signal : ℕ → ℝ) (n maxLag : ℕ) (lag : ℕ) : ℝ :=
  if lag < maxLag ∧ lag < n then
    (∑ i in Finset.range (n - lag), signal i * signal (i + lag)) / ((n - lag : ℕ) : ℝ)
  else 0

/-- Periodicity score: the maximum autocorrelation over lags 10..49 (the
fold is seeded with the first entry of the slice). -/
noncomputable def periodicityScore (td : ℕ → ℝ) (n : ℕ) : ℝ :=
  (List.range' 10 40).foldl (fun m lag => max m (protAutocorr td n 50 lag))
    (protAutocorr td n 50 10)

/-- One step of the rising/falling peak scan of detectFormantStructure;
the state is (previous value, rising flag, peak count). -/
noncomputable def formantStep (fd : ℕ → ℝ) (st : ℝ × Bool × ℕ) (i : ℕ) : ℝ × Bool × ℕ :=
  if st.1 < fd i ∧ st.2.1 = false then (fd i, true, st.2.2)
  else if fd i < st.1 ∧ st.2.1 = true then (fd i, false, st.2.2 + 1)
  else (fd i, st.2.1, st.2.2)

/-- detectFormantStructure: count spectral peaks over the 500-3000 Hz
formant region and normalize against 4 expected formants. -/
noncomputable def detectFormantStructure (fd : ℕ → ℝ) (sr : ℕ) : ℝ :=
  let formantStart := 500 * binCount * 2 / sr
  let formantEnd := 3000 * binCount * 2 / sr
  let final := (List.range' (formantStart + 1) (formantEnd - (formantStart + 1))).foldl
    (formantStep fd) (fd formantStart, false, 0)
  min 1.0 ((final.2.2 : ℝ) / 4)

/-- checkSpeechProtection: the maximum of the three independently
thresholded protection factors (periodicity 0.8, formant structure 0.6,
sustained low/mid energy 0.3). -/
noncomputable def checkSpeechProtection (td : ℕ → ℝ) (n : ℕ) (fd : ℕ → ℝ)
    (sr : ℕ) : ℝ :=
  max (max (if 0.3 < periodicityScore td n then 0.8 else 0)
           (if 0.4 < detectFormantStructure fd sr then 0.6 else 0))
      (if bandEnergyHigh fd sr < bandEnergyLow fd sr + bandEnergyMid fd sr
        then 0.3 else 0)

/-- Peak absolute amplitude of the frame. -/
noncomputable def maxAmplitudeOf (td : ℕ → ℝ) (n : ℕ) : ℝ :=
  (List.range n).foldl (fun m i => max m |td i|) 0

/-- Adaptive spectral flux threshold (sensitivity exponent 2.2). -/
noncomputable def adaptiveSpectralThresholdOf (snr s : ℝ) : ℝ :=
  spectralFluxThresholdC / s ^ (2.2:ℝ) / max 1.0 (snr / 8)

/-- Spectral flux method confidence, capped at 2. -/
noncomputable def fluxConfidence (fd prev : ℕ → ℝ) (snr s : ℝ) : ℝ :=
  min 2.0 (spectralFluxOf fd prev / adaptiveSpectralThresholdOf snr s)

/-- Total band energy with the 0.0001 guard. -/
noncomputable def totalEnergyOf (fd : ℕ → ℝ) (sr : ℕ) : ℝ :=
  bandEnergyLow fd sr + bandEnergyMid fd sr + bandEnergyHigh fd sr + 0.0001

/-- Mouth band to total energy ratio. -/
noncomputable def mouthBandRatio (fd : ℕ → ℝ) (sr : ℕ) : ℝ :=
  bandEnergyMouth fd sr / totalEnergyOf fd sr

/-- Adaptive transient threshold (sensitivity exponent 2.0). -/
noncomputable def adaptiveTransientThresholdOf (snr s : ℝ) : ℝ :=
  transientRatioThreshold / s ^ (2.0:ℝ) / max 1.0 (snr / 15)

/-- Mouth-band transient method confidence, capped at 2. -/
noncomputable def mouthConfidence (fd : ℕ → ℝ) (sr : ℕ) (snr s : ℝ) : ℝ :=
  min 2.0 (mouthBandRatio fd sr / adaptiveTransientThresholdOf snr s)

/-- High-band to low/mid-band burst ratio. -/
noncomputable def highFreqBurstOf (fd : ℕ → ℝ) (sr : ℕ) : ℝ :=
  bandEnergyHigh fd sr / (bandEnergyLow fd sr + bandEnergyMid fd sr + 0.0001)

/-- High-frequency burst method confidence, capped at 2 (independent of
sensitivity; the exponent-1.8 scaling affects only the detected flag). -/
noncomputable def burstConfidence (fd : ℕ → ℝ) (sr : ℕ) : ℝ :=
  min 2.0 (highFreqBurstOf fd sr / 2.0)

/-- Amplitude spike threshold (sensitivity exponent 2.3). -/
noncomputable def amplitudeSpikeThreshold (snr s : ℝ) : ℝ :=
  0.1 / s ^ (2.3:ℝ) / max 1.0 (snr / 20)

/-- Amplitude spike test against the sensitivity- and SNR-scaled
threshold. -/
def amplitudeSpike (td : ℕ → ℝ) (n : ℕ) (snr s : ℝ) : Prop :=
  amplitudeSpikeThreshold snr s < maxAmplitudeOf td n

/-- Amplitude spike method confidence: 1.5 on a spike, else 0. -/
noncomputable def ampConfidence (td : ℕ → ℝ) (n : ℕ) (snr s : ℝ) : ℝ :=
  if amplitudeSpikeThreshold snr s < maxAmplitudeOf td n then 1.5 else 0

/-- Confidence fusion: static method weights (lpc 0.35, flux 0.25,
mouth-band 0.2, burst 0.15, amplitude 0.05), each scaled by the
frequency-skew weight; the fused confidence is the weight-normalized sum,
zero when the total weight is not positive. -/
noncomputable def finalConfidenceOf (lpcC fluxC mouthC burstC ampC skewWeight : ℝ) : ℝ :=
  let totalWeight := 0.35 * skewWeight + 0.25 * skewWeight + 0.2 * skewWeight +
    0.15 * skewWeight + 0.05 * skewWeight
  let weightedConfidence := lpcC * (0.35 * skewWeight) + fluxC * (0.25 * skewWeight) +
    mouthC * (0.2 * skewWeight) + burstC * (0.15 * skewWeight) + ampC * (0.05 * skewWeight)
  if 0 < totalWeight then weightedConfidence / totalWeight else 0

/-- The fused, speech-protection-discounted confidence of one frame, as a
function of the persistent analyzer state it reads (loudness history,
previous spectrum) and the sensitivity. -/
noncomputable def adjustedConfidenceOf (history : List ℝ) (prev : ℕ → ℝ)
    (td : ℕ → ℝ) (n : ℕ) (fd : ℕ → ℝ) (sr : ℕ) (skew s : ℝ) : ℝ :=
  let snr := (updateDynamicLoudness history td n).snr
  let skewWeight := getFrequencyWeight skew (calculateSpectralCentroid fd sr)
  let finalConfidence := finalConfidenceOf (lpcConfidence td n snr s)
    (fluxConfidence fd prev snr s) (mouthConfidence fd sr snr s)
    (burstConfidence fd sr) (ampConfidence td n snr s) skewWeight
  let speechProtection := checkSpeechProtection td n fd sr * 0.6
  finalConfidence * (1 - speechProtection)

/-- Sensitivity-scaled confidence threshold (exponent 1.5). -/
noncomputable def scaledConfidenceThreshold (s : ℝ) : ℝ :=
  confidenceThresholdParam / s ^ (1.5:ℝ)

/-- Dynamic decision threshold: min of the adaptive threshold and the
sensitivity-scaled base threshold. -/
noncomputable def dynamicThresholdOf (adaptiveThreshold s : ℝ) : ℝ :=
  min adaptiveThreshold (scaledConfidenceThreshold s)

/-- The click decision of detectMouthClick: the weighted-average path plus
the two override paths (LPC with flux; amplitude spike with mouth ratio and
moderate LPC confidence). -/
def isClickDecision (history : List ℝ) (prev : ℕ → ℝ) (td : ℕ → ℝ) (n : ℕ)
    (fd : ℕ → ℝ) (sr : ℕ) (skew s : ℝ) : Prop :=
  let loud := updateDynamicLoudness history td n
  dynamicThresholdOf loud.adaptiveThreshold s <
      adjustedConfidenceOf history prev td n fd sr skew s ∨
    (1.5 / s ^ (1.5:ℝ) < lpcConfidence td n loud.snr s ∧
      adaptiveSpectralThresholdOf loud.snr s < spectralFluxOf fd prev) ∨
    (amplitudeSpike td n loud.snr s ∧
      0.5 / Real.sqrt (s ^ (1.5:ℝ)) < mouthBandRatio fd sr ∧
      1.0 / s ^ (1.5:ℝ) < lpcConfidence td n loud.snr s)

/-- Rate-admission required confidence of shouldProcessClick: 0.5 over
sensitivity^0.8 plus a window-fullness surcharge (k admitted events in the
trailing window against the maximum of 8). -/
noncomputable def requiredConfidenceOf (k : ℕ) (s : ℝ) : ℝ :=
  0.5 / s ^ (0.8:ℝ) + ((k : ℝ) / 8) * 0.3 / s ^ (0.8:ℝ)

/-- Persistent rate limiter state. -/
structure RLState where
  clickHistory : List ℝ
  lastClickTime : ℝ
  clickSuppressionTime : ℝ

/-- Constructor initial rate-limiter state. -/
def initRLState : RLState :=
  { clickHistory := [], lastClickTime := 0, clickSuppressionTime := 0 }

/-- shouldProcessClick: undetected frames return immediately; otherwise the
trailing 1-second window is pruned, then admission is refused during the
50 ms suppression period, while the pruned window already holds the maximum
of 8 events, within 125 ms of the last admitted event, or when the
confidence is below the fullness- and sensitivity-scaled requirement; on
admission the timestamp is recorded, the last-event time updated and the
suppression period set. -/
noncomputable def shouldProcessClick (st : RLState) (s : ℝ) (isDetected : Bool)
    (confidence : ℝ) (now : ℝ) : Bool × RLState :=
  if isDetected = false then (false, st)
  else
    let hist := st.clickHistory.filter (fun t => now - t < 1000)
    if now < st.clickSuppressionTime then (false, { st with clickHistory := hist })
    else if 8 ≤ hist.length then (false, { st with clickHistory := hist })
    else if now - st.lastClickTime < 125 then (false, { st with clickHistory := hist })
    else if confidence < requiredConfidenceOf hist.length s then
      (false, { st with clickHistory := hist })
    else
      (true, { clickHistory := hist ++ [now], lastClickTime := now,
               clickSuppressionTime := now + 50 })

/-- One detection call as seen by the rate limiter: the sensitivity
snapshot, the raw decision, its confidence, and the call time. -/
structure RLInput where
  sensitivity : ℝ
  isDetected : Bool
  confidence : ℝ
  now : ℝ

/-- The timestamps admitted by shouldProcessClick over a sequence of
detection calls. -/
noncomputable def admittedTimes (st : RLState) : List RLInput → List ℝ
  | [] => []
  | inp :: rest =>
      let r := shouldProcessClick st inp.sensitivity inp.isDetected inp.confidence inp.now
      (if r.1 then [inp.now] else []) ++ admittedTimes r.2 rest

/-- Result fields of detectMouthClick consumed by observability. -/
structure DetectionResult where
  isClick : Bool
  confidence : ℝ
  lpcConfidence : ℝ
  spectralConfidence : ℝ

/-- The persistent engine state read or mutated by detectMouthClick. -/
structure EngineState where
  processingEnabled : Bool
  params : Params
  sampleRate : ℕ
  loudnessHistory : List ℝ
  backgroundNoiseLevel : ℝ
  signalToNoiseRatio : ℝ
  adaptiveThreshold : ℝ
  previousSpectrum : ℕ → ℝ
  circularBuffer : ℕ → ℝ
  bufferIndex : ℕ
  bufferSize : ℕ
  rl : RLState
  clickCount : ℕ

/-- Circular buffer update: write each frame sample at the running buffer
index, advancing modulo the buffer size. -/
def circularWrite (buf : ℕ → ℝ) (idx size : ℕ) (td : ℕ → ℝ) (n : ℕ) :
    (ℕ → ℝ) × ℕ :=
  (List.range n).foldl (fun st i =>
    (Function.update st.1 st.2 (td i), (st.2 + 1) % size)) (buf, idx)

/-- The click decision is built from decidable real comparisons. -/
noncomputable instance isClickDecisionDec (history : List ℝ) (prev : ℕ → ℝ)
    (td : ℕ → ℝ) (n : ℕ) (fd : ℕ → ℝ) (sr : ℕ) (skew s : ℝ) :
    Decidable (isClickDecision history prev td n fd sr skew s) := by
  unfold isClickDecision amplitudeSpike
  infer_instance

/-- detectMouthClick: with processing disabled it returns the zero result
and the unchanged state; otherwise it runs loudness adaptation, writes the
circular buffer, evaluates the detection methods and fusion, takes the
click decision, applies the rate limiter, and returns the mutated state
(the click counter advances on admission, when handleMouthClickDetected
runs).  The performance.now() call time is passed explicitly. -/
noncomputable def detectMouthClick (st : EngineState) (td : ℕ → ℝ) (n : ℕ)
    (fd : ℕ → ℝ) (now : ℝ) : DetectionResult × EngineState :=
  if st.processingEnabled = false then
    ({ isClick := false, confidence := 0, lpcConfidence := 0,
       spectralConfidence := 0 }, st)
  else
    let loud := updateDynamicLoudness st.loudnessHistory td n
    let cb := circularWrite st.circularBuffer st.bufferIndex st.bufferSize td n
    let s := ((st.params.sensitivity : ℝ))
    let skew := ((st.params.frequencySkew : ℝ))
    let sr := st.sampleRate
    let lpcC := lpcConfidence td n loud.snr s
    let finalC := finalConfidenceOf lpcC
      (fluxConfidence fd st.previousSpectrum loud.snr s)
      (mouthConfidence fd sr loud.snr s) (burstConfidence fd sr)
      (ampConfidence td n loud.snr s)
      (getFrequencyWeight skew (calculateSpectralCentroid fd sr))
    let adjusted := adjustedConfidenceOf st.loudnessHistory st.previousSpectrum
      td n fd sr skew s
    let decided := decide (isClickDecision st.loudnessHistory st.previousSpectrum
      td n fd sr skew s)
    let rlr := shouldProcessClick st.rl s decided adjusted now
    ({ isClick := rlr.1, confidence := adjusted, lpcConfidence := lpcC,
       spectralConfidence := finalC },
     { st with loudnessHistory := loud.newHistory,
               backgroundNoiseLevel := loud.backgroundNoiseLevel,
               signalToNoiseRatio := loud.snr,
               adaptiveThreshold := loud.adaptiveThreshold,
               previousSpectrum := fd,
               circularBuffer := cb.1,
               bufferIndex := cb.2,
               rl := rlr.2,
               clickCount := st.clickCount + (if rlr.1 then 1 else 0) })

/-- The raw reduction factor is positive whenever reductionAmount is not in
the complete-removal branch. -/
lemma rawReductionFactor_pos (db : ℚ) : 0 < rawReductionFactor db := by
  unfold rawReductionFactor
  split
  · norm_num
  · exact Real.rpow_pos_of_pos (by norm_num) _

/-- The safety stage is the identity on positive inputs. -/
lemma reductionSafety_of_pos {x : ℝ} (hx : 0 < x) : reductionSafety x = x := by
  unfold reductionSafety
  rw [if_neg (not_le.mpr hx)]

/-- The resolved reduction factor is positive. -/
lemma resolveReductionFactor_pos (db : ℚ) : 0 < resolveReductionFactor db := by
  unfold resolveReductionFactor
  rw [reductionSafety_of_pos (rawReductionFactor_pos db)]
  exact rawReductionFactor_pos db

/-- For a reductionAmount of at most 0 dB the resolved reduction factor is
at most one. -/
lemma resolveReductionFactor_le_one {db : ℚ} (h : db ≤ 0) :
    resolveReductionFactor db ≤ 1 := by
  unfold resolveReductionFactor
  rw [reductionSafety_of_pos (rawReductionFactor_pos db)]
  unfold rawReductionFactor
  split
  · norm_num
  · apply Real.rpow_le_one_of_one_le_of_nonpos (by norm_num)
    have hdb : (db : ℝ) ≤ 0 := by exact_mod_cast h
    linarith

/-- C5: the resolved reduction factor used by the gain scheduler is exactly
0.0001 whenever reductionDb ≤ -60, is 10^(reductionDb/20) otherwise, the
safety stage replaces any non-positive value by the default 0.0001, and the
resolved factor is always positive (never exactly zero). -/
theorem resolveReductionFactor_spec (db : ℚ) :
    (db ≤ -60 → resolveReductionFactor db = 0.0001) ∧
    (¬ db ≤ -60 → resolveReductionFactor db = (10 : ℝ) ^ ((db : ℝ) / 20)) ∧
    (∀ x : ℝ, x ≤ 0 → reductionSafety x = 0.0001) ∧
    0 < resolveReductionFactor db := by
  refine ⟨?_, ?_, ?_, resolveReductionFactor_pos db⟩
  · intro h
    unfold resolveReductionFactor
    rw [reductionSafety_of_pos (rawReductionFactor_pos db)]
    unfold rawReductionFactor
    rw [if_pos h]
  · intro h
    unfold resolveReductionFactor
    rw [reductionSafety_of_pos (rawReductionFactor_pos db)]
    unfold rawReductionFactor
    rw [if_neg h]
  · intro x hx
    unfold reductionSafety
    rw [if_pos hx]

/-- Witness for C5 at the boundary values reductionDb = -60 and 0. -/
theorem resolveReductionFactor_spec_witness :
    resolveReductionFactor (-60) = 0.0001 ∧
    resolveReductionFactor 0 = (10 : ℝ) ^ (((0 : ℚ) : ℝ) / 20) ∧
    0 < resolveReductionFactor (-60) :=
  ⟨(resolveReductionFactor_spec (-60)).1 (by norm_num),
   (resolveReductionFactor_spec 0).2.1 (by norm_num),
   (resolveReductionFactor_spec (-60)).2.2.2⟩

/-- C1: for every valid configuration (reductionDb in [-60, 0], widening in
[1, 20] ms, either mode) and every confidence, every gain value placed on
the scheduled gain curve, and on the fallback curve, lies in [0.0001, 1.0]
(finiteness is automatic over ℝ). -/
theorem gainCurve_gains_bounded (p : Params) (confidence currentTime delayTime : ℝ)
    (hr1 : -60 ≤ p.reductionAmount) (hr2 : p.reductionAmount ≤ 0)
    (hw1 : 1 ≤ p.clickWidening) (hw2 : p.clickWidening ≤ 20) :
    (∀ pt ∈ scheduledGainCurve p confidence currentTime delayTime,
        0.0001 ≤ pt.gain ∧ pt.gain ≤ 1) ∧
    (∀ pt ∈ fallbackGainCurve currentTime delayTime,
        0.0001 ≤ pt.gain ∧ pt.gain ≤ 1) := by
  have hrf0 : (0.0001 : ℝ) ≤ max 0.1 (resolveReductionFactor p.reductionAmount) := by
    have : (0.0001 : ℝ) ≤ 0.1 := by norm_num
    exact this.trans (le_max_left _ _)
  have hrf1 : max 0.1 (resolveReductionFactor p.reductionAmount) ≤ 1 :=
    max_le (by norm_num) (resolveReductionFactor_le_one hr2)
  constructor
  · intro pt hpt
    simp only [scheduledGainCurve, List.mem_cons, List.mem_singleton,
      List.not_mem_nil, or_false] at hpt
    rcases hpt with h | h | h | h | h | h <;> subst h
    · exact ⟨by norm_num, by norm_num⟩
    · exact ⟨hrf0, hrf1⟩
    · exact ⟨hrf0, hrf1⟩
    · exact ⟨by norm_num, by norm_num⟩
    · exact ⟨by norm_num, by norm_num⟩
    · exact ⟨by norm_num, by norm_num⟩
  · intro pt hpt
    simp only [fallbackGainCurve, List.mem_cons, List.mem_singleton,
      List.not_mem_nil, or_false] at hpt
    rcases hpt with h | h <;> subst h <;> constructor <;> norm_num

/-- Witness for C1 at the boundary configuration reductionDb = -60,
clickWideningMs = 1, smack mode. -/
theorem gainCurve_gains_bounded_witness :
    (∀ pt ∈ scheduledGainCurve
        { sensitivity := 1, frequencySkew := 0, clickWidening := 1,
          reductionAmount := -60, mode := Mode.smack } 0.7 10 0.12,
        0.0001 ≤ pt.gain ∧ pt.gain ≤ 1) ∧
    (∀ pt ∈ fallbackGainCurve 10 0.12,
        0.0001 ≤ pt.gain ∧ pt.gain ≤ 1) :=
  gainCurve_gains_bounded
    { sensitivity := 1, frequencySkew := 0, clickWidening := 1,
      reductionAmount := -60, mode := Mode.smack } 0.7 10 0.12
    (by norm_num) (by norm_num) (by norm_num) (by norm_num)

/-- C7: evidence that the configuration interface is not idempotent — the
second application of setMode 'smack' from the default parameter set lowers
the stored frequencySkew again (0 to -0.2 to -0.3), so applying the same
parameter set twice does not leave the stored configuration identical to
applying it once. -/
theorem setMode_smack_not_idempotent :
    (setMode defaultParams Mode.smack).frequencySkew = -0.2 ∧
    (setMode (setMode defaultParams Mode.smack) Mode.smack).frequencySkew = -0.3 ∧
    setMode (setMode defaultParams Mode.smack) Mode.smack ≠
      setMode defaultParams Mode.smack := by
  refine ⟨by norm_num [setMode, defaultParams], by norm_num [setMode, defaultParams], ?_⟩
  intro h
  have h2 := congrArg Params.frequencySkew h
  norm_num [setMode, defaultParams] at h2

/-- C8: counterexample — updateParameters (Object.assign) performs no
clamping: supplying sensitivity = 99 stores 99, which is outside the valid
range [0.1, 2.0], refuting that every configuration update clamps each
supplied field. -/
theorem updateParameters_does_not_clamp :
    (updateParameters defaultParams { sensitivity := some 99 }).sensitivity = 99 ∧
    ¬ (updateParameters defaultParams { sensitivity := some 99 }).sensitivity ≤ 2 := by
  constructor
  · rfl
  · norm_num [updateParameters, defaultParams]

/-- C8 (amended): each dedicated setter clamps its supplied field into the
valid range, leaves every other stored field unchanged, and never rejects
an update (it is a total function); omitted fields of an updateParameters
patch retain their prior value. -/
theorem setters_clamp_and_preserve (p : Params) (v : ℚ) :
    (0.1 ≤ (setSensitivity p v).sensitivity ∧ (setSensitivity p v).sensitivity ≤ 2 ∧
      (setSensitivity p v).frequencySkew = p.frequencySkew ∧
      (setSensitivity p v).clickWidening = p.clickWidening ∧
      (setSensitivity p v).reductionAmount = p.reductionAmount ∧
      (setSensitivity p v).mode = p.mode) ∧
    (-1 ≤ (setFrequencySkew p v).frequencySkew ∧ (setFrequencySkew p v).frequencySkew ≤ 1 ∧
      (setFrequencySkew p v).sensitivity = p.sensitivity ∧
      (setFrequencySkew p v).clickWidening = p.clickWidening ∧
      (setFrequencySkew p v).reductionAmount = p.reductionAmount ∧
      (setFrequencySkew p v).mode = p.mode) ∧
    (1 ≤ (setClickWidening p v).clickWidening ∧ (setClickWidening p v).clickWidening ≤ 20 ∧
      (setClickWidening p v).sensitivity = p.sensitivity ∧
      (setClickWidening p v).frequencySkew = p.frequencySkew ∧
      (setClickWidening p v).reductionAmount = p.reductionAmount ∧
      (setClickWidening p v).mode = p.mode) ∧
    (-60 ≤ (setReductionAmount p v).reductionAmount ∧
      (setReductionAmount p v).reductionAmount ≤ 0 ∧
      (setReductionAmount p v).sensitivity = p.sensitivity ∧
      (setReductionAmount p v).frequencySkew = p.frequencySkew ∧
      (setReductionAmount p v).clickWidening = p.clickWidening ∧
      (setReductionAmount p v).mode = p.mode) ∧
    updateParameters p {} = p := by
  refine ⟨⟨?_, ?_, rfl, rfl, rfl, rfl⟩, ⟨?_, ?_, rfl, rfl, rfl, rfl⟩,
    ⟨?_, ?_, rfl, rfl, rfl, rfl⟩, ⟨?_, ?_, rfl, rfl, rfl, rfl⟩, rfl⟩
  · exact le_trans (by norm_num) (le_max_left _ _)
  · exact max_le (by norm_num) (le_trans (min_le_left _ _) (by norm_num))
  · exact le_trans (by norm_num) (le_max_left _ _)
  · exact max_le (by norm_num) (le_trans (min_le_left _ _) (by norm_num))
  · exact le_trans (by norm_num) (le_max_left _ _)
  · exact max_le (by norm_num) (le_trans (min_le_left _ _) (by norm_num))
  · exact le_trans (by norm_num) (le_max_left _ _)
  · exact max_le (by norm_num) (le_trans (min_le_left _ _) (by norm_num))

/-- C9 (amended): for every input frame and history, the SNR reported by
the loudness tracker lies in [0.1, 60], and the loudness value is finite
and floored at -200 dB (the 1e-10 RMS floor), with -60 dB substituted only
when the RMS is zero or non-finite; it is not floored at -60 dB. -/
theorem loudness_snr_bounds (history : List ℝ) (timeData : ℕ → ℝ) (n : ℕ) :
    0.1 ≤ (updateDynamicLoudness history timeData n).snr ∧
    (updateDynamicLoudness history timeData n).snr ≤ 60 ∧
    -200 ≤ (updateDynamicLoudness history timeData n).loudnessDb := by
  refine ⟨le_max_left _ _, ?_, ?_⟩
  · exact max_le (by norm_num) (min_le_left _ _)
  · show -200 ≤ (if 0 < rmsOf timeData n then
      20 * Real.logb 10 (max (rmsOf timeData n) 1e-10) else -60)
    split
    · have h10 : Real.logb 10 (1e-10 : ℝ) = -10 := by
        rw [show (1e-10 : ℝ) = (10:ℝ) ^ ((-10 : ℤ):ℝ) from by rw [Real.rpow_intCast]; norm_num,
          Real.logb_rpow (by norm_num) (by norm_num)]
        norm_num
      have hmono : Real.logb 10 (1e-10 : ℝ) ≤
          Real.logb 10 (max (rmsOf timeData n) 1e-10) :=
        Real.logb_le_logb_of_le (by norm_num) (by norm_num) (le_max_right _ _)
      rw [h10] at hmono
      linarith
    · norm_num

/-- C9: counterexample to the -60 dB floor — a one-sample frame with value
1e-5 yields an RMS of 1e-5 and a loudness of -100 dB, strictly below
-60 dB. -/
theorem loudness_below_minus60 :
    (updateDynamicLoudness (List.replicate 30 (-60)) (fun _ => 1e-5) 1).loudnessDb
      = -100 ∧ (-100 : ℝ) < -60 := by
  have hrms : rmsOf (fun _ => 1e-5) 1 = 1e-5 := by
    unfold rmsOf
    rw [show (∑ i in Finset.range 1, (fun (_ : ℕ) => (1e-5:ℝ)) i *
        (fun (_ : ℕ) => (1e-5:ℝ)) i) = 1e-10 from by simp; norm_num]
    rw [show ((1:ℕ):ℝ) = 1 from by norm_num, div_one,
      show (1e-10 : ℝ) = (1e-5)^2 from by norm_num]
    exact Real.sqrt_sq (by norm_num)
  refine ⟨?_, by norm_num⟩
  show (if 0 < rmsOf (fun _ => 1e-5) 1 then
      20 * Real.logb 10 (max (rmsOf (fun _ => 1e-5) 1) 1e-10) else -60) = -100
  rw [hrms, if_pos (by norm_num : (0:ℝ) < 1e-5),
    show max (1e-5 : ℝ) 1e-10 = 1e-5 from max_eq_left (by norm_num),
    show (1e-5 : ℝ) = (10:ℝ) ^ ((-5 : ℤ):ℝ) from by rw [Real.rpow_intCast]; norm_num,
    Real.logb_rpow (by norm_num) (by norm_num)]
  norm_num

/-- Admission implies the 125 ms spacing from the running last-event time
and records the admission time; refusal keeps the last-event time. -/
lemma shouldProcessClick_lastClickTime (st : RLState) (s : ℝ) (d : Bool)
    (c now : ℝ) :
    ((shouldProcessClick st s d c now).1 = true →
      (shouldProcessClick st s d c now).2.lastClickTime = now ∧
        st.lastClickTime + 125 ≤ now) ∧
    ((shouldProcessClick st s d c now).1 = false →
      (shouldProcessClick st s d c now).2.lastClickTime = st.lastClickTime) := by
  cases d with
  | false => unfold shouldProcessClick; simp
  | true =>
      simp only [shouldProcessClick]
      rw [if_neg (by simp : ¬(true = false))]
      split_ifs with h2 h3 h4 h5
      · simp
      · simp
      · simp
      · simp
      · refine ⟨fun _ => ⟨rfl, ?_⟩, fun hf => by simp at hf⟩
        linarith [not_lt.mp h4]

/-- Every admitted time is at least 125 ms after the incoming last-event
time, and the admitted times are pairwise separated by at least 125 ms. -/
lemma admittedTimes_spacing (inputs : List RLInput) :
    ∀ st : RLState,
      (∀ t ∈ admittedTimes st inputs, st.lastClickTime + 125 ≤ t) ∧
      (admittedTimes st inputs).Pairwise (fun a b => a + 125 ≤ b) := by
  induction inputs with
  | nil => intro st; simp [admittedTimes]
  | cons inp rest ih =>
      intro st
      have hspc := shouldProcessClick_lastClickTime st inp.sensitivity
        inp.isDetected inp.confidence inp.now
      obtain ⟨iha, ihp⟩ := ih (shouldProcessClick st inp.sensitivity
        inp.isDetected inp.confidence inp.now).2
      simp only [admittedTimes]
      rcases hb : (shouldProcessClick st inp.sensitivity inp.isDetected
          inp.confidence inp.now).1 with _ | _
      · have hlast := hspc.2 hb
        rw [if_neg (by simp : ¬(false = true)), List.nil_append]
        exact ⟨fun t ht => hlast ▸ iha t ht, ihp⟩
      · obtain ⟨hrec, hgap⟩ := hspc.1 hb
        rw [if_pos rfl, List.singleton_append]
        rw [hrec] at iha
        refine ⟨?_, ?_⟩
        · intro t ht
          rcases List.mem_cons.mp ht with h | h
          · exact h ▸ hgap
          · have := iha t h; linarith
        · exact List.pairwise_cons.mpr
            ⟨fun t ht => by have := iha t ht; linarith, ihp⟩

/-- C4: any two events admitted by shouldProcessClick over any sequence of
detection calls from the initial rate-limiter state are separated by at
least the minimum spacing of 125 ms (in admission order); the last-event
time is updated on every admission, which is what forces the spacing. -/
theorem admitted_events_min_spacing (inputs : List RLInput) :
    (admittedTimes initRLState inputs).Pairwise (fun a b => a + 125 ≤ b) :=
  (admittedTimes_spacing inputs initRLState).2

/-- A list pairwise separated by 125 whose members lie in [lo, hi] has
(length - 1) * 125 at most hi - lo. -/
lemma pairwise_gap_span : ∀ (l : List ℝ), l.Pairwise (fun a b => a + 125 ≤ b) →
    ∀ lo hi : ℝ, (∀ x ∈ l, lo ≤ x ∧ x ≤ hi) → l ≠ [] →
    ((l.length : ℝ) - 1) * 125 ≤ hi - lo := by
  intro l
  induction l with
  | nil => intro _ lo hi _ hne; exact absurd rfl hne
  | cons a t ih =>
      intro hp lo hi hbound _
      obtain ⟨hpa, hpt⟩ := List.pairwise_cons.mp hp
      obtain ⟨hlo, hhi⟩ := hbound a (List.mem_cons_self a t)
      rcases t with _ | ⟨b, t'⟩
      · simp
        linarith
      · have iht := ih hpt (a + 125) hi
          (fun x hx => ⟨hpa x hx, (hbound x (List.mem_cons_of_mem a hx)).2⟩)
          (List.cons_ne_nil b t')
        have hlen : ((b :: t').length : ℝ) = (t'.length : ℝ) + 1 := by
          simp only [List.length_cons]
          push_cast
          ring
        simp only [List.length_cons] at iht ⊢
        push_cast at iht ⊢
        linarith

/-- C3: over any sequence of detection calls from the initial rate-limiter
state, the number of admitted events whose timestamps lie inside any
trailing 1-second window (T-1000, T] never exceeds the configured maximum
of 8. -/
theorem admitted_events_window_bound (inputs : List RLInput) (T : ℝ) :
    ((admittedTimes initRLState inputs).filter
      (fun t => decide (T - 1000 < t ∧ t ≤ T))).length ≤ 8 := by
  have hp : (admittedTimes initRLState inputs).Pairwise (fun a b => a + 125 ≤ b) :=
    (admittedTimes_spacing inputs initRLState).2
  have hpf : ((admittedTimes initRLState inputs).filter
      (fun t => decide (T - 1000 < t ∧ t ≤ T))).Pairwise (fun a b => a + 125 ≤ b) :=
    hp.filter _
  have hmem : ∀ x ∈ (admittedTimes initRLState inputs).filter
      (fun t => decide (T - 1000 < t ∧ t ≤ T)), T - 1000 < x ∧ x ≤ T := by
    intro x hx
    have := List.of_mem_filter hx
    simpa using this
  by_contra hcon
  push_neg at hcon
  rcases hf : (admittedTimes initRLState inputs).filter
      (fun t => decide (T - 1000 < t ∧ t ≤ T)) with _ | ⟨a, t⟩
  · rw [hf] at hcon; simp at hcon
  · rw [hf] at hcon hpf hmem
    obtain ⟨hpa, hpt⟩ := List.pairwise_cons.mp hpf
    have hspan := pairwise_gap_span (a :: t) hpf a T
      (fun x hx => ⟨by
          rcases List.mem_cons.mp hx with h | h
          · exact h ▸ le_refl a
          · linarith [hpa x h],
        (hmem x hx).2⟩)
      (List.cons_ne_nil a t)
    have ha := hmem a (List.mem_cons_self a t)
    have hlen : (9 : ℕ) ≤ (a :: t).length := hcon
    have hlenr : (9 : ℝ) ≤ ((a :: t).length : ℝ) := by exact_mod_cast hlen
    nlinarith [hspan, ha.1, ha.2]

/-- C10: if processing is disabled, detectMouthClick returns isClick false
with zero confidence and zero per-method confidences, and leaves the whole
persistent analysis state (loudness history, circular buffer, previous
spectrum, rate limiter) unchanged. -/
theorem detect_disabled_noop (st : EngineState) (td : ℕ → ℝ) (n : ℕ)
    (fd : ℕ → ℝ) (now : ℝ) (h : st.processingEnabled = false) :
    detectMouthClick st td n fd now =
      ({ isClick := false, confidence := 0, lpcConfidence := 0,
         spectralConfidence := 0 }, st) := by
  unfold detectMouthClick
  rw [if_pos h]

/-- Witness for C10 on a concrete disabled state. -/
theorem detect_disabled_noop_witness :
    detectMouthClick
      { processingEnabled := false, params := defaultParams, sampleRate := 48000,
        loudnessHistory := List.replicate 30 (-60), backgroundNoiseLevel := -40,
        signalToNoiseRatio := 1, adaptiveThreshold := 0.35,
        previousSpectrum := fun _ => 0, circularBuffer := fun _ => 0,
        bufferIndex := 0, bufferSize := 5760, rl := initRLState, clickCount := 0 }
      (fun _ => 0) 1024 (fun _ => 0) 0 =
      ({ isClick := false, confidence := 0, lpcConfidence := 0,
         spectralConfidence := 0 },
       { processingEnabled := false, params := defaultParams, sampleRate := 48000,
         loudnessHistory := List.replicate 30 (-60), backgroundNoiseLevel := -40,
         signalToNoiseRatio := 1, adaptiveThreshold := 0.35,
         previousSpectrum := fun _ => 0, circularBuffer := fun _ => 0,
         bufferIndex := 0, bufferSize := 5760, rl := initRLState, clickCount := 0 }) :=
  detect_disabled_noop _ (fun _ => 0) 1024 (fun _ => 0) 0 rfl

/-- A max-accumulating fold never drops below its seed. -/
lemma le_foldl_max (f : ℕ → ℝ) :
    ∀ (l : List ℕ) (b : ℝ), b ≤ l.foldl (fun m i => max m (f i)) b := by
  intro l
  induction l with
  | nil => intro b; exact le_refl b
  | cons a t ih =>
      intro b
      exact le_trans (le_max_left b (f a)) (ih (max b (f a)))

/-- The residual peak is nonnegative. -/
lemma errorPeakOf_nonneg (e : ℕ → ℝ) (n : ℕ) : 0 ≤ errorPeakOf e n :=
  le_foldl_max _ _ 0

/-- The residual RMS is nonnegative. -/
lemma errorRMSOf_nonneg (e : ℕ → ℝ) (n : ℕ) : 0 ≤ errorRMSOf e n :=
  Real.sqrt_nonneg _

/-- The spectral flux is nonnegative. -/
lemma spectralFluxOf_nonneg (fd prev : ℕ → ℝ) : 0 ≤ spectralFluxOf fd prev := by
  unfold spectralFluxOf
  apply div_nonneg _ (Nat.cast_nonneg _)
  exact Finset.sum_nonneg fun i _ => le_max_left 0 _

/-- Band energies are nonnegative for nonnegative weights. -/
lemma calculateBandEnergy_nonneg (fd : ℕ → ℝ) (a b : ℕ) {w : ℝ} (hw : 0 ≤ w) :
    0 ≤ calculateBandEnergy fd a b w := by
  unfold calculateBandEnergy
  split
  · apply mul_nonneg _ hw
    apply div_nonneg _ (Nat.cast_nonneg _)
    exact Finset.sum_nonneg fun i _ => Real.rpow_nonneg (by norm_num) _
  · exact le_refl 0

/-- The low band energy is nonnegative. -/
lemma bandEnergyLow_nonneg (fd : ℕ → ℝ) (sr : ℕ) : 0 ≤ bandEnergyLow fd sr :=
  calculateBandEnergy_nonneg fd _ _ (by norm_num)

/-- The mid band energy is nonnegative. -/
lemma bandEnergyMid_nonneg (fd : ℕ → ℝ) (sr : ℕ) : 0 ≤ bandEnergyMid fd sr :=
  calculateBandEnergy_nonneg fd _ _ (by norm_num)

/-- The high band energy is nonnegative. -/
lemma bandEnergyHigh_nonneg (fd : ℕ → ℝ) (sr : ℕ) : 0 ≤ bandEnergyHigh fd sr :=
  calculateBandEnergy_nonneg fd _ _ (by norm_num)

/-- The mouth band energy is nonnegative. -/
lemma bandEnergyMouth_nonneg (fd : ℕ → ℝ) (sr : ℕ) : 0 ≤ bandEnergyMouth fd sr :=
  calculateBandEnergy_nonneg fd _ _ (by norm_num)

/-- The guarded total band energy is positive. -/
lemma totalEnergyOf_pos (fd : ℕ → ℝ) (sr : ℕ) : 0 < totalEnergyOf fd sr := by
  unfold totalEnergyOf
  have h1 := bandEnergyLow_nonneg fd sr
  have h2 := bandEnergyMid_nonneg fd sr
  have h3 := bandEnergyHigh_nonneg fd sr
  linarith

/-- The mouth band ratio is nonnegative. -/
lemma mouthBandRatio_nonneg (fd : ℕ → ℝ) (sr : ℕ) : 0 ≤ mouthBandRatio fd sr :=
  div_nonneg (bandEnergyMouth_nonneg fd sr) (totalEnergyOf_pos fd sr).le

/-- The peak amplitude is nonnegative. -/
lemma maxAmplitudeOf_nonneg (td : ℕ → ℝ) (n : ℕ) : 0 ≤ maxAmplitudeOf td n :=
  le_foldl_max _ _ 0

/-- A base-over-sensitivity-power threshold is antitone in sensitivity. -/
lemma scaledThreshold_anti {base p K s1 s2 : ℝ} (hp : 0 ≤ p)
    (hK : 0 < K) (h0 : 0 < s1) (h12 : s1 ≤ s2) (hbase : 0 ≤ base) :
    base / s2 ^ p / K ≤ base / s1 ^ p / K := by
  have h1 : s1 ^ p ≤ s2 ^ p := Real.rpow_le_rpow h0.le h12 hp
  have h2 : 0 < s1 ^ p := Real.rpow_pos_of_pos h0 p
  gcongr

/-- A base-over-sensitivity-power threshold is positive. -/
lemma scaledThreshold_pos {base p K s : ℝ} (hbase : 0 < base) (hK : 0 < K)
    (h0 : 0 < s) : 0 < base / s ^ p / K := by
  have h2 : 0 < s ^ p := Real.rpow_pos_of_pos h0 p
  positivity

/-- The SNR divisor guards are positive. -/
lemma snrFactor_pos (snr m : ℝ) : 0 < max 1.0 (snr / m) :=
  lt_of_lt_of_le (by norm_num) (le_max_left _ _)

/-- A capped ratio against a shrinking positive threshold never
decreases. -/
lemma minconf_mono {x T1 T2 : ℝ} (hx : 0 ≤ x) (hT2 : 0 < T2) (h : T2 ≤ T1) :
    min 2.0 (x / T1) ≤ min 2.0 (x / T2) := by
  have : x / T1 ≤ x / T2 := by gcongr
  exact min_le_min (le_refl _) this

/-- The LPC method confidence is non-decreasing in sensitivity
(exponent 2.5). -/
lemma lpcConfidence_mono (td : ℕ → ℝ) (n : ℕ) (snr : ℝ) {s1 s2 : ℝ}
    (h0 : 0 < s1) (h12 : s1 ≤ s2) :
    lpcConfidence td n snr s1 ≤ lpcConfidence td n snr s2 := by
  unfold lpcConfidence adaptiveErrorThreshold
  have hanti : lpcErrorThreshold / s2 ^ (2.5:ℝ) / max 1.0 (snr / 10) ≤
      lpcErrorThreshold / s1 ^ (2.5:ℝ) / max 1.0 (snr / 10) :=
    scaledThreshold_anti (by norm_num) (snrFactor_pos snr 10) h0 h12
      (by unfold lpcErrorThreshold; norm_num)
  have hpos : 0 < lpcErrorThreshold / s2 ^ (2.5:ℝ) / max 1.0 (snr / 10) :=
    scaledThreshold_pos (by unfold lpcErrorThreshold; norm_num)
      (snrFactor_pos snr 10) (lt_of_lt_of_le h0 h12)
  refine max_le_max ?_ ?_
  · exact minconf_mono (errorRMSOf_nonneg _ _) hpos hanti
  · exact minconf_mono (errorPeakOf_nonneg _ _) (by linarith) (by linarith)

/-- The spectral flux method confidence is non-decreasing in sensitivity
(exponent 2.2). -/
lemma fluxConfidence_mono (fd prev : ℕ → ℝ) (snr : ℝ) {s1 s2 : ℝ}
    (h0 : 0 < s1) (h12 : s1 ≤ s2) :
    fluxConfidence fd prev snr s1 ≤ fluxConfidence fd prev snr s2 := by
  unfold fluxConfidence adaptiveSpectralThresholdOf
  exact minconf_mono (spectralFluxOf_nonneg fd prev)
    (scaledThreshold_pos (by unfold spectralFluxThresholdC; norm_num)
      (snrFactor_pos snr 8) (lt_of_lt_of_le h0 h12))
    (scaledThreshold_anti (by norm_num) (snrFactor_pos snr 8) h0 h12
      (by unfold spectralFluxThresholdC; norm_num))

/-- The mouth-band transient method confidence is non-decreasing in
sensitivity (exponent 2.0). -/
lemma mouthConfidence_mono (fd : ℕ → ℝ) (sr : ℕ) (snr : ℝ) {s1 s2 : ℝ}
    (h0 : 0 < s1) (h12 : s1 ≤ s2) :
    mouthConfidence fd sr snr s1 ≤ mouthConfidence fd sr snr s2 := by
  unfold mouthConfidence adaptiveTransientThresholdOf
  exact minconf_mono (mouthBandRatio_nonneg fd sr)
    (scaledThreshold_pos (by unfold transientRatioThreshold; norm_num)
      (snrFactor_pos snr 15) (lt_of_lt_of_le h0 h12))
    (scaledThreshold_anti (by norm_num) (snrFactor_pos snr 15) h0 h12
      (by unfold transientRatioThreshold; norm_num))

/-- The amplitude spike method confidence is non-decreasing in sensitivity
(exponent 2.3): once the shrinking threshold is crossed it stays
crossed. -/
lemma ampConfidence_mono (td : ℕ → ℝ) (n : ℕ) (snr : ℝ) {s1 s2 : ℝ}
    (h0 : 0 < s1) (h12 : s1 ≤ s2) :
    ampConfidence td n snr s1 ≤ ampConfidence td n snr s2 := by
  unfold ampConfidence amplitudeSpikeThreshold
  have hanti : (0.1:ℝ) / s2 ^ (2.3:ℝ) / max 1.0 (snr / 20) ≤
      0.1 / s1 ^ (2.3:ℝ) / max 1.0 (snr / 20) :=
    scaledThreshold_anti (by norm_num) (snrFactor_pos snr 20) h0 h12 (by norm_num)
  split_ifs with ha hb hb
  · exact le_refl _
  · exact absurd (lt_of_le_of_lt hanti ha) hb
  · norm_num
  · exact le_refl _

/-- The frequency-skew weight is positive in every branch. -/
lemma getFrequencyWeight_pos (skew freq : ℝ) : 0 < getFrequencyWeight skew freq := by
  unfold getFrequencyWeight
  split_ifs <;> exact Real.exp_pos _

/-- With a positive skew weight the fused confidence reduces to the static
weighted sum of the method confidences. -/
lemma finalConfidenceOf_eq (lpcC fluxC mouthC burstC ampC sw : ℝ) (hsw : 0 < sw) :
    finalConfidenceOf lpcC fluxC mouthC burstC ampC sw =
      lpcC * 0.35 + fluxC * 0.25 + mouthC * 0.2 + burstC * 0.15 + ampC * 0.05 := by
  unfold finalConfidenceOf
  rw [if_pos (by nlinarith :
    (0:ℝ) < 0.35 * sw + 0.25 * sw + 0.2 * sw + 0.15 * sw + 0.05 * sw)]
  have hne : (0.35 * sw + 0.25 * sw + 0.2 * sw + 0.15 * sw + 0.05 * sw) ≠ 0 := by
    nlinarith
  field_simp
  ring

/-- The speech protection factor lies in [0, 0.8]. -/
lemma checkSpeechProtection_bounds (td : ℕ → ℝ) (n : ℕ) (fd : ℕ → ℝ) (sr : ℕ) :
    0 ≤ checkSpeechProtection td n fd sr ∧ checkSpeechProtection td n fd sr ≤ 0.8 := by
  unfold checkSpeechProtection
  split_ifs <;> norm_num [le_max_iff, max_le_iff]

/-- The adjusted (fused, protection-discounted) confidence is
non-decreasing in sensitivity. -/
lemma adjustedConfidenceOf_mono (history : List ℝ) (prev : ℕ → ℝ) (td : ℕ → ℝ)
    (n : ℕ) (fd : ℕ → ℝ) (sr : ℕ) (skew : ℝ) {s1 s2 : ℝ}
    (h0 : 0 < s1) (h12 : s1 ≤ s2) :
    adjustedConfidenceOf history prev td n fd sr skew s1 ≤
      adjustedConfidenceOf history prev td n fd sr skew s2 := by
  simp only [adjustedConfidenceOf]
  have hsw := getFrequencyWeight_pos skew (calculateSpectralCentroid fd sr)
  rw [finalConfidenceOf_eq _ _ _ _ _ _ hsw, finalConfidenceOf_eq _ _ _ _ _ _ hsw]
  have hprot := checkSpeechProtection_bounds td n fd sr
  have hfac : 0 ≤ 1 - checkSpeechProtection td n fd sr * 0.6 := by
    obtain ⟨_, h⟩ := hprot; linarith
  apply mul_le_mul_of_nonneg_right _ hfac
  have h1 := lpcConfidence_mono td n
    (updateDynamicLoudness history td n).snr h0 h12
  have h2 := fluxConfidence_mono fd prev
    (updateDynamicLoudness history td n).snr h0 h12
  have h3 := mouthConfidence_mono fd sr
    (updateDynamicLoudness history td n).snr h0 h12
  have h5 := ampConfidence_mono td n
    (updateDynamicLoudness history td n).snr h0 h12
  linarith

/-- The dynamic decision threshold is non-increasing in sensitivity
(exponent 1.5). -/
lemma dynamicThresholdOf_anti (a : ℝ) {s1 s2 : ℝ} (h0 : 0 < s1) (h12 : s1 ≤ s2) :
    dynamicThresholdOf a s2 ≤ dynamicThresholdOf a s1 := by
  unfold dynamicThresholdOf scaledConfidenceThreshold
  refine min_le_min (le_refl a) ?_
  have h1 : s1 ^ (1.5:ℝ) ≤ s2 ^ (1.5:ℝ) := Real.rpow_le_rpow h0.le h12 (by norm_num)
  have h2 : 0 < s1 ^ (1.5:ℝ) := Real.rpow_pos_of_pos h0 _
  have hc : (0:ℝ) ≤ confidenceThresholdParam := by unfold confidenceThresholdParam; norm_num
  gcongr

/-- The rate-admission required confidence is non-increasing in sensitivity
(exponent 0.8). -/
lemma requiredConfidenceOf_anti (k : ℕ) {s1 s2 : ℝ} (h0 : 0 < s1) (h12 : s1 ≤ s2) :
    requiredConfidenceOf k s2 ≤ requiredConfidenceOf k s1 := by
  unfold requiredConfidenceOf
  have h1 : s1 ^ (0.8:ℝ) ≤ s2 ^ (0.8:ℝ) := Real.rpow_le_rpow h0.le h12 (by norm_num)
  have h2 : 0 < s1 ^ (0.8:ℝ) := Real.rpow_pos_of_pos h0 _
  have hk : (0:ℝ) ≤ (k:ℝ) / 8 * 0.3 := by positivity
  gcongr

/-- C2: for a fixed frame and fixed analyzer state, each per-method
confidence (LPC 2.5, spectral flux 2.2, mouth band 2.0, burst 1.8 —
constant in sensitivity, hence non-decreasing — and amplitude 2.3) and the
fused adjusted confidence are monotonically non-decreasing in sensitivity
over [0.1, 2.0], while the decision threshold (exponent 1.5) and the
rate-admission required confidence (exponent 0.8) are non-increasing. -/
theorem detect_monotone_sensitivity (history : List ℝ) (prev : ℕ → ℝ)
    (td : ℕ → ℝ) (n : ℕ) (fd : ℕ → ℝ) (sr : ℕ) (skew snr adaptiveThr : ℝ)
    (k : ℕ) {s1 s2 : ℝ} (h01 : 0.1 ≤ s1) (h12 : s1 ≤ s2) (h2 : s2 ≤ 2) :
    lpcConfidence td n snr s1 ≤ lpcConfidence td n snr s2 ∧
    fluxConfidence fd prev snr s1 ≤ fluxConfidence fd prev snr s2 ∧
    mouthConfidence fd sr snr s1 ≤ mouthConfidence fd sr snr s2 ∧
    burstConfidence fd sr ≤ burstConfidence fd sr ∧
    ampConfidence td n snr s1 ≤ ampConfidence td n snr s2 ∧
    adjustedConfidenceOf history prev td n fd sr skew s1 ≤
      adjustedConfidenceOf history prev td n fd sr skew s2 ∧
    dynamicThresholdOf adaptiveThr s2 ≤ dynamicThresholdOf adaptiveThr s1 ∧
    requiredConfidenceOf k s2 ≤ requiredConfidenceOf k s1 := by
  have h0 : (0:ℝ) < s1 := lt_of_lt_of_le (by norm_num) h01
  exact ⟨lpcConfidence_mono td n snr h0 h12,
    fluxConfidence_mono fd prev snr h0 h12,
    mouthConfidence_mono fd sr snr h0 h12,
    le_refl _,
    ampConfidence_mono td n snr h0 h12,
    adjustedConfidenceOf_mono history prev td n fd sr skew h0 h12,
    dynamicThresholdOf_anti adaptiveThr h0 h12,
    requiredConfidenceOf_anti k h0 h12⟩

/-- Witness for C2 at sensitivities 1 and 2 on a concrete silent frame and
state. -/
theorem detect_monotone_sensitivity_witness :
    lpcConfidence (fun _ => 0) 1024 1 1 ≤ lpcConfidence (fun _ => 0) 1024 1 2 ∧
    fluxConfidence (fun _ => 0) (fun _ => 0) 1 1 ≤
      fluxConfidence (fun _ => 0) (fun _ => 0) 1 2 ∧
    mouthConfidence (fun _ => 0) 48000 1 1 ≤ mouthConfidence (fun _ => 0) 48000 1 2 ∧
    burstConfidence (fun _ => 0) 48000 ≤ burstConfidence (fun _ => 0) 48000 ∧
    ampConfidence (fun _ => 0) 1024 1 1 ≤ ampConfidence (fun _ => 0) 1024 1 2 ∧
    adjustedConfidenceOf (List.replicate 30 (-60)) (fun _ => 0) (fun _ => 0) 1024
      (fun _ => 0) 48000 0 1 ≤
      adjustedConfidenceOf (List.replicate 30 (-60)) (fun _ => 0) (fun _ => 0) 1024
        (fun _ => 0) 48000 0 2 ∧
    dynamicThresholdOf 0.35 2 ≤ dynamicThresholdOf 0.35 1 ∧
    requiredConfidenceOf 0 2 ≤ requiredConfidenceOf 0 1 :=
  detect_monotone_sensitivity (List.replicate 30 (-60)) (fun _ => 0) (fun _ => 0)
    1024 (fun _ => 0) 48000 0 1 0.35 0 (by norm_num) (by norm_num) (by norm_num)

/-- A max-accumulating fold stays at its seed when no element exceeds it. -/
lemma foldl_max_eq_init (f : ℕ → ℝ) :
    ∀ (l : List ℕ) (b : ℝ), (∀ i, f i ≤ b) → l.foldl (fun m i => max m (f i)) b = b := by
  intro l
  induction l with
  | nil => intro b _; rfl
  | cons a t ih =>
      intro b hb
      show t.foldl _ (max b (f a)) = b
      rw [max_eq_left (hb a)]
      exact ih b hb

/-- The peak amplitude of an all-zero window is zero. -/
lemma maxAmplitudeOf_zero (td : ℕ → ℝ) (hz : ∀ i, td i = 0) (n : ℕ) :
    maxAmplitudeOf td n = 0 := by
  unfold maxAmplitudeOf
  exact foldl_max_eq_init _ _ 0 (fun i => by rw [hz i]; simp)

/-- The residual peak of an all-zero residual is zero. -/
lemma errorPeakOf_zero (e : ℕ → ℝ) (hz : ∀ i, e i = 0) (n : ℕ) :
    errorPeakOf e n = 0 := by
  unfold errorPeakOf
  exact foldl_max_eq_init _ _ 0 (fun i => by rw [hz i]; simp)

/-- The residual RMS of an all-zero residual is zero. -/
lemma errorRMSOf_zero (e : ℕ → ℝ) (hz : ∀ i, e i = 0) (n : ℕ) :
    errorRMSOf e n = 0 := by
  unfold errorRMSOf
  simp [hz]

/-- The biased autocorrelation of an all-zero window vanishes at every
lag. -/
lemma autocorrAt_zero (td : ℕ → ℝ) (hz : ∀ i, td i = 0) (n k : ℕ) :
    autocorrAt td n k = 0 := by
  unfold autocorrAt
  simp [hz]

/-- The prediction error of an all-zero window is identically zero,
whatever the coefficients. -/
lemma computePredictionError_zero (signal : ℕ → ℝ) (hz : ∀ i, signal i = 0)
    (n : ℕ) (c : List ℝ) (i : ℕ) : computePredictionError signal n c i = 0 := by
  unfold computePredictionError
  split
  · simp [hz]
  · rfl

/-- An all-zero window short-circuits computeLPCCoefficients to zero
coefficients and error exactly 1.0 (through either early exit). -/
lemma computeLPCCoefficients_zero (td : ℕ → ℝ) (hz : ∀ i, td i = 0)
    (n order : ℕ) :
    computeLPCCoefficients td n order = (List.replicate (order + 1) 0, 1.0) := by
  unfold computeLPCCoefficients
  by_cases h : n < order * 2
  · rw [if_pos h]
  · rw [if_neg h, if_pos (by rw [autocorrAt_zero td hz]; norm_num)]

/-- The LPC confidence of an all-zero window is zero. -/
lemma lpcConfidence_zero (td : ℕ → ℝ) (hz : ∀ i, td i = 0) (n : ℕ)
    (snr s : ℝ) : lpcConfidence td n snr s = 0 := by
  simp only [lpcConfidence]
  have hw : ∀ i, analysisWindow td n i = 0 := fun i => hz _
  have he : ∀ i, computePredictionError (analysisWindow td n) (analysisWindowSize n)
      (computeLPCCoefficients (analysisWindow td n) (analysisWindowSize n) lpcOrder).1 i
        = 0 :=
    computePredictionError_zero _ hw _ _
  rw [errorRMSOf_zero _ he, errorPeakOf_zero _ he]
  norm_num [min_def]

/-- The amplitude method confidence of an all-zero window is zero. -/
lemma ampConfidence_zero (td : ℕ → ℝ) (hz : ∀ i, td i = 0) (n : ℕ) (snr s : ℝ)
    (hs : 0 < s) : ampConfidence td n snr s = 0 := by
  unfold ampConfidence
  have h1 : ¬ (amplitudeSpikeThreshold snr s < maxAmplitudeOf td n) := by
    rw [maxAmplitudeOf_zero td hz]
    unfold amplitudeSpikeThreshold
    exact not_lt.mpr (scaledThreshold_pos (by norm_num) (snrFactor_pos snr 20) hs).le
  rw [if_neg h1]

/-- C6 (amended): windows shorter than 2*order, and windows whose zeroth
autocorrelation is below 1e-10, short-circuit computeLPCCoefficients to an
all-zero coefficient vector of length order+1 with error exactly 1.0; an
all-zero sample window short-circuits identically and has LPC confidence 0,
and with it neither LPC-gated override path can fire, so the click decision
reduces to the weighted-average path — which may still decide a click from
frequency-domain evidence alone. -/
theorem lpc_silence_shortcircuit (signal : ℕ → ℝ) (n order : ℕ)
    (history : List ℝ) (prev td fd : ℕ → ℝ) (sr : ℕ) (skew s : ℝ)
    (hz : ∀ i, td i = 0) (hs : 0 < s) :
    (n < order * 2 → computeLPCCoefficients signal n order =
      (List.replicate (order + 1) 0, 1.0)) ∧
    (autocorrAt signal n 0 < 1e-10 → computeLPCCoefficients signal n order =
      (List.replicate (order + 1) 0, 1.0)) ∧
    computeLPCCoefficients td n order = (List.replicate (order + 1) 0, 1.0) ∧
    (∀ snr : ℝ, lpcConfidence td n snr s = 0) ∧
    (isClickDecision history prev td n fd sr skew s ↔
      dynamicThresholdOf (updateDynamicLoudness history td n).adaptiveThreshold s <
        adjustedConfidenceOf history prev td n fd sr skew s) := by
  refine ⟨?_, ?_, computeLPCCoefficients_zero td hz n order,
    fun snr => lpcConfidence_zero td hz n snr s, ?_⟩
  · intro h
    unfold computeLPCCoefficients
    rw [if_pos h]
  · intro h
    unfold computeLPCCoefficients
    by_cases h2 : n < order * 2
    · rw [if_pos h2]
    · rw [if_neg h2, if_pos h]
  · simp only [isClickDecision]
    constructor
    · rintro (h | ⟨h1, _⟩ | ⟨h1, _, _⟩)
      · exact h
      · exfalso
        rw [lpcConfidence_zero td hz] at h1
        have hpos : (0:ℝ) < 1.5 / s ^ (1.5:ℝ) :=
          div_pos (by norm_num) (Real.rpow_pos_of_pos hs _)
        linarith
      · exfalso
        unfold amplitudeSpike at h1
        rw [maxAmplitudeOf_zero td hz] at h1
        have hpos : (0:ℝ) < amplitudeSpikeThreshold
            (updateDynamicLoudness history td n).snr s := by
          unfold amplitudeSpikeThreshold
          exact scaledThreshold_pos (by norm_num) (snrFactor_pos _ 20) hs
        linarith
    · exact Or.inl

/-- Witness for C6 (amended) on a short window, an all-zero window, and a
concrete sensitivity. -/
theorem lpc_silence_shortcircuit_witness :
    computeLPCCoefficients (fun _ => 1) 8 16 = (List.replicate 17 0, 1.0) ∧
    computeLPCCoefficients (fun _ => 0) 1024 16 = (List.replicate 17 0, 1.0) ∧
    lpcConfidence (fun _ => 0) 1024 1 1 = 0 :=
  ⟨(lpc_silence_shortcircuit (fun _ => 1) 8 16 [] (fun _ => 0) (fun _ => 0)
      (fun _ => 0) 48000 0 1 (fun _ => rfl) (by norm_num)).1 (by norm_num),
   (lpc_silence_shortcircuit (fun _ => 1) 1024 16 [] (fun _ => 0) (fun _ => 0)
      (fun _ => 0) 48000 0 1 (fun _ => rfl) (by norm_num)).2.2.1,
   (lpc_silence_shortcircuit (fun _ => 1) 1024 16 [] (fun _ => 0) (fun _ => 0)
      (fun _ => 0) 48000 0 1 (fun _ => rfl) (by norm_num)).2.2.2.1 1⟩

/-- Ordered insertion of an element into a constant run of itself. -/
lemma orderedInsert_replicate_self (a : ℝ) :
    ∀ k, List.orderedInsert (· ≤ ·) a (List.replicate k a) = a :: List.replicate k a := by
  intro k
  cases k with
  | zero => rfl
  | succ m =>
      rw [List.replicate_succ]
      show (if a ≤ a then a :: a :: List.replicate m a
        else a :: List.orderedInsert (· ≤ ·) a (List.replicate m a)) = _
      rw [if_pos le_rfl, ← List.replicate_succ]

/-- Insertion sort fixes a constant list. -/
lemma insertionSort_replicate (a : ℝ) :
    ∀ k, List.insertionSort (· ≤ ·) (List.replicate k a) = List.replicate k a := by
  intro k
  induction k with
  | zero => rfl
  | succ m ih =>
      rw [List.replicate_succ]
      show List.orderedInsert (· ≤ ·) a
        (List.insertionSort (· ≤ ·) (List.replicate m a)) = _
      rw [ih, orderedInsert_replicate_self, ← List.replicate_succ]

/-- Loudness tracking of a fully silent 1024-sample frame from the initial
all-quiet history: the SNR clamps to 0.1 and the adaptive threshold to
0.65/2.995. -/
lemma silent_loudness :
    (updateDynamicLoudness (List.replicate 30 (-60)) (fun _ => 0) 1024).snr = 0.1 ∧
    (updateDynamicLoudness (List.replicate 30 (-60)) (fun _ => 0) 1024).adaptiveThreshold
      = 0.65 / 2.995 := by
  have hrms : rmsOf (fun _ => 0) 1024 = 0 := by
    unfold rmsOf; simp
  have htail : (List.replicate 30 ((-60:ℝ)) ++ [(-60:ℝ)]).tail
      = List.replicate 30 (-60) := by
    rw [List.replicate_succ, List.cons_append, List.tail_cons]
    exact (List.replicate_succ' 29 (-60)).symm
  simp only [updateDynamicLoudness, hrms]
  rw [if_neg (lt_irrefl (0:ℝ))]
  rw [if_pos (by simp : (30:ℕ) < (List.replicate 30 ((-60:ℝ)) ++ [(-60:ℝ)]).length),
    htail, insertionSort_replicate]
  constructor <;> norm_num [confidenceThresholdParam, min_def, max_def]

/-- Band energy on a flat 0 dB spectrum is the band weight. -/
lemma calculateBandEnergy_flat0 (a b : ℕ) (h : a < b) (w : ℝ) :
    calculateBandEnergy (fun _ => 0) a b w = w := by
  unfold calculateBandEnergy
  rw [if_pos h]
  have hsum : (∑ i in Finset.Ico a b, (10:ℝ) ^ ((fun _ => (0:ℝ)) i / 20))
      = ((b - a : ℕ) : ℝ) := by
    simp [Finset.sum_const, Nat.card_Ico]
  rw [hsum, div_self (by
    have : 0 < b - a := Nat.sub_pos_of_lt h
    exact_mod_cast this.ne'), one_mul]

/-- The four band energies of a flat 0 dB spectrum at 48 kHz. -/
lemma silent_bands :
    bandEnergyLow (fun _ => 0) 48000 = 0.2 ∧
    bandEnergyMid (fun _ => 0) 48000 = 0.6 ∧
    bandEnergyHigh (fun _ => 0) 48000 = 1.0 ∧
    bandEnergyMouth (fun _ => 0) 48000 = 1.5 :=
  ⟨calculateBandEnergy_flat0 _ _ (by norm_num [freqBin, binCount]) 0.2,
   calculateBandEnergy_flat0 _ _ (by norm_num [freqBin, binCount]) 0.6,
   calculateBandEnergy_flat0 _ _ (by norm_num [freqBin, binCount]) 1.0,
   calculateBandEnergy_flat0 _ _ (by norm_num [freqBin, binCount]) 1.5⟩

/-- The protection autocorrelation of an all-zero window is zero. -/
lemma protAutocorr_zero (td : ℕ → ℝ) (hz : ∀ i, td i = 0) (n maxLag lag : ℕ) :
    protAutocorr td n maxLag lag = 0 := by
  unfold protAutocorr
  split
  · simp [hz]
  · rfl

/-- The periodicity score of an all-zero window is zero. -/
lemma periodicityScore_zero (td : ℕ → ℝ) (hz : ∀ i, td i = 0) (n : ℕ) :
    periodicityScore td n = 0 := by
  unfold periodicityScore
  rw [protAutocorr_zero td hz]
  exact foldl_max_eq_init _ _ 0
    (fun lag => le_of_eq (protAutocorr_zero td hz n 50 lag))

/-- The formant scan over a constant spectrum counts no peaks. -/
lemma formantFold_const (fd : ℕ → ℝ) (c : ℝ) (hc : ∀ i, fd i = c) :
    ∀ (l : List ℕ) (r : Bool) (k : ℕ),
      l.foldl (formantStep fd) (c, r, k) = (c, r, k) := by
  intro l
  induction l with
  | nil => intro r k; rfl
  | cons a t ih =>
      intro r k
      show t.foldl (formantStep fd) (formantStep fd (c, r, k) a) = (c, r, k)
      have hstep : formantStep fd (c, r, k) a = (c, r, k) := by
        unfold formantStep
        rw [hc a]
        simp [lt_irrefl]
      rw [hstep]
      exact ih r k

/-- The formant strength of an all-zero spectrum is zero. -/
lemma detectFormantStructure_zero (fd : ℕ → ℝ) (hz : ∀ i, fd i = 0) (sr : ℕ) :
    detectFormantStructure fd sr = 0 := by
  simp only [detectFormantStructure]
  rw [hz, formantFold_const fd 0 hz]
  norm_num [min_def]

/-- The speech protection of the fully silent frame is zero (periodicity
and formant scores vanish, and the sustained-energy flag is off on the flat
spectrum). -/
lemma checkSpeechProtection_silent :
    checkSpeechProtection (fun _ => 0) 1024 (fun _ => 0) 48000 = 0 := by
  unfold checkSpeechProtection
  rw [periodicityScore_zero _ (fun _ => rfl),
    detectFormantStructure_zero _ (fun _ => rfl)]
  obtain ⟨hl, hm, hh, _⟩ := silent_bands
  rw [hl, hm, hh]
  norm_num [max_def]

/-- The spectral flux between two equal spectra is zero. -/
lemma spectralFluxOf_self (fd : ℕ → ℝ) : spectralFluxOf fd fd = 0 := by
  unfold spectralFluxOf
  simp

/-- Two raised to the real exponent two is four. -/
lemma two_rpow_two : (2:ℝ) ^ ((2.0:ℝ)) = 4 := by
  rw [show ((2.0:ℝ)) = ((2:ℕ):ℝ) from by norm_num, Real.rpow_natCast]
  norm_num

/-- C6: counterexample — on an all-zero 1024-sample window paired with a
flat 0 dB spectrum (a representable analyser frame), from the initial
analyzer state at the valid sensitivity 2.0, the weighted-average path
exceeds the decision threshold and a click IS decided, refuting the
no-click part of the claim for all-zero sample windows. -/
theorem allzero_window_click_decided :
    isClickDecision (List.replicate 30 (-60)) (fun _ => 0) (fun _ => 0) 1024
      (fun _ => 0) 48000 0 2 := by
  obtain ⟨hsnr, hat⟩ := silent_loudness
  obtain ⟨hl, hm, hh, hmo⟩ := silent_bands
  have hmouth : mouthConfidence (fun _ => 0) 48000 0.1 2
      = (1.5 / 1.8001) / 0.7 := by
    unfold mouthConfidence mouthBandRatio totalEnergyOf adaptiveTransientThresholdOf
    rw [hl, hm, hh, hmo, two_rpow_two]
    norm_num [transientRatioThreshold, min_def, max_def]
  have hburst : burstConfidence (fun _ => 0) 48000 = (1 / 0.8001) / 2 := by
    unfold burstConfidence highFreqBurstOf
    rw [hl, hm, hh]
    norm_num [min_def]
  have hflux : fluxConfidence (fun _ => 0) (fun _ => 0) 0.1 2 = 0 := by
    unfold fluxConfidence
    rw [spectralFluxOf_self, zero_div]
    norm_num [min_def]
  have hadj : adjustedConfidenceOf (List.replicate 30 (-60)) (fun _ => 0)
      (fun _ => 0) 1024 (fun _ => 0) 48000 0 2
      = (0 * 0.35 + 0 * 0.25 + ((1.5 / 1.8001) / 0.7) * 0.2
          + ((1 / 0.8001) / 2) * 0.15 + 0 * 0.05) * (1 - 0 * 0.6) := by
    simp only [adjustedConfidenceOf]
    rw [hsnr, finalConfidenceOf_eq _ _ _ _ _ _ (getFrequencyWeight_pos _ _),
      lpcConfidence_zero _ (fun _ => rfl), hflux, hmouth, hburst,
      ampConfidence_zero _ (fun _ => rfl) _ _ _ (by norm_num),
      checkSpeechProtection_silent]
  simp only [isClickDecision]
  refine Or.inl ?_
  rw [hat, hadj]
  unfold dynamicThresholdOf
  refine lt_of_le_of_lt (min_le_left _ _) ?_
  norm_num
